import Mathlib

/-
Verification of the configuration-loading and dispatch logic of the
copilot-foundry-skill command-line scripts.

The embedding follows the Python sources:
  foundry-agent/scripts/call_agent.py   (load_env_file, check_environment,
                                         check_auth, call_agent,
                                         call_agent_streaming,
                                         interactive_mode, list_agents, main)
  foundry-agent/call_agent_simple.py    (module-level env loading block)
  foundry-agent/scripts/check_auth.py   (check_azure_cli_logged_in)

The process environment os.environ is modelled as an association list in
insertion order; new keys are appended at the end. External effects
(file system, subprocesses, the cloud SDK) are modelled by explicit data
supplied as parameters, and a raised Python exception is modelled by the
exc constructor of PyResult carrying the exception type name and message.
-/

/-- Python whitespace test used by str.strip with no arguments. -/
def isPySpace (c : Char) : Bool :=
  c = ' ' || c = '\t' || c = '\n' || c = '\r' || c = '\x0b' || c = '\x0c'

/-- Drop characters satisfying p from both ends of a character list, as Python str.strip does. -/
def stripEnds (p : Char → Bool) (s : List Char) : List Char :=
  ((s.dropWhile p).reverse.dropWhile p).reverse

/-- Python str.strip with no arguments. -/
def pystrip (s : String) : String := ⟨stripEnds isPySpace s.data⟩

/-- Python str.strip with an explicit set of characters to remove from both ends. -/
def stripChars (p : Char → Bool) (s : String) : String := ⟨stripEnds p s.data⟩

/-- The single-quote character. -/
def squote : Char := Char.ofNat 39

/-- Python str.partition at the first equals sign: the part before it and the part after it.
Only used on lines already known to contain an equals sign. -/
def partitionEq : List Char → List Char × List Char
  | [] => ([], [])
  | c :: t =>
    if c = '=' then ([], t)
    else
      let r := partitionEq t
      (c :: r.1, r.2)

/-- Python line.startswith on the one-character string containing the hash sign. -/
def startsWithHash (s : String) : Bool := s.data.head? = some '#'

/-- Lowercasing of one character, as Python str.lower acts on the ASCII inputs the
interactive loop compares against. -/
def pylowerChar (c : Char) : Char :=
  if 'A' ≤ c ∧ c ≤ 'Z' then Char.ofNat (c.toNat + 32) else c

/-- Python str.lower, modelled characterwise. -/
def pylower (s : String) : String := ⟨s.data.map pylowerChar⟩

/-- Lookup in the process environment, modelled as an association list in insertion order. -/
def envGet : List (String × String) → String → Option String
  | [], _ => none
  | (k, v) :: t, key => if k = key then some v else envGet t key

/-- Parsing of one stripped line inside load_env_file of scripts/call_agent.py:
a line that is nonempty, does not start with a hash, and contains an equals sign is
split at the first equals sign; the key is stripped of whitespace; the value is
stripped of whitespace, then of double quotes, then of single quotes; the result
counts only when both key and value are nonempty. -/
def parseKV (line : String) : Option (String × String) :=
  if line != "" && !startsWithHash line && line.data.contains '=' then
    let p := partitionEq line.data
    let key := pystrip ⟨p.1⟩
    let value := stripChars (fun c => c = squote) (stripChars (fun c => c = '"') (pystrip ⟨p.2⟩))
    if key != "" && value != "" then some (key, value) else none
  else none

/-- Effect of one raw file line on os.environ in load_env_file: the line is stripped,
parsed, and the key is set only when it is not already present in the environment. -/
def processLine (env : List (String × String)) (rawLine : String) : List (String × String) :=
  match parseKV (pystrip rawLine) with
  | some kv => if envGet env kv.1 = none then env ++ [kv] else env
  | none => env

/-- The body of load_env_file over one opened file: lines processed top to bottom. -/
def processLines : List (String × String) → List String → List (String × String)
  | env, [] => env
  | env, l :: ls => processLines (processLine env l) ls

/-- Outcome of running a Python fragment: a normal value, or a raised exception carrying
its type name and message. -/
inductive PyResult (α : Type) where
  | ok (a : α)
  | exc (kind msg : String)
deriving DecidableEq

/-- State of one candidate .env path on disk: missing; present but raising the given
exception when opened or decoded; or readable with the given list of lines. -/
inductive FileState where
  | absent
  | errFile (kind msg : String)
  | readable (lines : List String)
deriving DecidableEq

/-- One candidate .env location: its path and its on-disk state. -/
structure Candidate where
  path : String
  state : FileState
deriving DecidableEq

/-- load_env_file from scripts/call_agent.py over the ordered candidate list: candidates
whose path does not exist are skipped; at the first existing candidate the file is opened,
its lines are folded into the environment, and its path is returned. The open and the
read have no try around them, so a failure there propagates as an exception. When no
candidate exists the function returns None and the environment is unchanged. -/
def loadEnvFile (cands : List Candidate) (env : List (String × String)) :
    PyResult (List (String × String) × Option String) :=
  match cands with
  | [] => .ok (env, none)
  | c :: rest =>
    match c.state with
    | .absent => loadEnvFile rest env
    | .errFile k m => .exc k m
    | .readable lines => .ok (processLines env lines, some c.path)

/-- Parsing of one raw line of the module-level env block of call_agent_simple.py: the
raw line, not stripped first, must be nonempty, not start with a hash, and contain an
equals sign; the key is stripped of whitespace; the value is stripped of whitespace and
then of both quote characters in a single pass; there are no emptiness checks on the
key or the value. -/
def simpleParseKV (line : String) : Option (String × String) :=
  if line != "" && !startsWithHash line && line.data.contains '=' then
    let p := partitionEq line.data
    some (pystrip ⟨p.1⟩, stripChars (fun c => c = '"' || c = squote) (pystrip ⟨p.2⟩))
  else none

/-- Effect of one line of the call_agent_simple env block on os.environ:
os.environ.setdefault sets the parsed key only when it is absent. -/
def simpleProcessLine (env : List (String × String)) (line : String) : List (String × String) :=
  match simpleParseKV line with
  | some kv => if envGet env kv.1 = none then env ++ [kv] else env
  | none => env

/-- The whole env block of call_agent_simple.py: lines processed top to bottom. -/
def simpleProcessLines : List (String × String) → List String → List (String × String)
  | env, [] => env
  | env, l :: ls => simpleProcessLines (simpleProcessLine env l) ls

/-- One turn message of the interactive conversation: a role and a content string. -/
structure Msg where
  role : String
  content : String
deriving DecidableEq

/-- The external cloud SDK behaviour, one field per remote operation the scripts use:
agents.get by name; agents.list; responses.create on a plain string input;
responses.create on a conversation input; responses.stream giving the events, each
with an optional delta attribute (none models an event without a truthy delta
attribute slot filled, that is a missing or None delta). Any operation may raise. -/
structure Service where
  getAgent : String → PyResult Unit
  agentsList : PyResult (List String)
  respond : String → PyResult String
  respondConv : List Msg → PyResult String
  streamEvents : String → PyResult (List (Option String))

/-- Remote-service call attempts made by one run, in order. getToken is the credential
token acquisition of the authentication gate; the others are agent-service calls. -/
inductive CallEvent where
  | getToken
  | getAgent
  | listAgents
  | respond
  | streamReq
deriving DecidableEq

/-- An agent call is any remote-service call other than the token acquisition. -/
def isAgentCall : CallEvent → Bool
  | .getToken => false
  | _ => true

/-- The world a run of main sees: the process environment after the module-level load,
whether the Azure CLI binary is installed, whether the azure python packages import,
whether the credential can obtain a token, and the SDK behaviour. -/
structure World where
  env : List (String × String)
  cliInstalled : Bool
  azureImportOk : Bool
  tokenOk : Bool
  svc : Service

/-- check_environment of scripts/call_agent.py: PROJECT_ENDPOINT must be present in
os.environ and nonempty (Python truthiness of the string). -/
def endpointOk (env : List (String × String)) : Bool :=
  match envGet env "PROJECT_ENDPOINT" with
  | some s => s != ""
  | none => false

/-- The authentication gate of main: in quiet mode the inline try needs only the azure
azure import and a token; otherwise check_auth needs the CLI installed, the import, and a
token. All failure paths return False rather than raising. -/
def authGate (w : World) (quiet : Bool) : Bool :=
  if quiet then w.azureImportOk && w.tokenOk
  else w.cliInstalled && w.azureImportOk && w.tokenOk

/-- Token-acquisition attempts made by the gate: the credential get_token call happens
whenever the azure import succeeds (and, in the non-quiet path, the CLI check passed
first), regardless of whether the token is obtained. -/
def authTrace (w : World) (quiet : Bool) : List CallEvent :=
  if quiet then (if w.azureImportOk then [.getToken] else [])
  else if w.cliInstalled && w.azureImportOk then [.getToken] else []

/-- Resolution agent_name or AGENT_NAME as in the Python sources: an absent or falsy
(empty) override falls back to the default. -/
def resolveAgent (override : Option String) (dflt : String) : String :=
  match override with
  | some s => if s = "" then dflt else s
  | none => dflt

/-- call_agent of scripts/call_agent.py: agents.get then responses.create on the message
string, returning response.output_text; each remote call may raise and the raise
propagates. The pair records the calls attempted in order. -/
def call_agent (svc : Service) (message : String) (name : String) :
    PyResult String × List CallEvent :=
  match svc.getAgent name with
  | .exc k m => (.exc k m, [.getAgent])
  | .ok _ =>
    match svc.respond message with
    | .exc k m => (.exc k m, [.getAgent, .respond])
    | .ok t => (.ok t, [.getAgent, .respond])

/-- The fragments yielded by call_agent_streaming from the stream events: an event
contributes event.delta exactly when the delta attribute is there and truthy, that is
present and a nonempty string. -/
def streamDeltas (evs : List (Option String)) : List String :=
  evs.filterMap fun d =>
    match d with
    | some s => if s = "" then none else some s
    | none => none

/-- call_agent_streaming of scripts/call_agent.py: agents.get then responses.stream on
the message, yielding the truthy deltas of the events in arrival order. -/
def call_agent_streaming (svc : Service) (message : String) (name : String) :
    PyResult (List String) × List CallEvent :=
  match svc.getAgent name with
  | .exc k m => (.exc k m, [.getAgent])
  | .ok _ =>
    match svc.streamEvents message with
    | .exc k m => (.exc k m, [.getAgent, .streamReq])
    | .ok evs => (.ok (streamDeltas evs), [.getAgent, .streamReq])

/-- list_agents of scripts/call_agent.py: one agents.list call, printing the names. -/
def list_agents (svc : Service) : PyResult Unit × List CallEvent :=
  match svc.agentsList with
  | .ok _ => (.ok (), [.listAgents])
  | .exc k m => (.exc k m, [.listAgents])

/-- The while loop of interactive_mode. The inputs list models the successive values
read by input(); its end models EOFError, which breaks the loop. An empty stripped
input continues; exit or quit (case-insensitive) breaks; otherwise the user message is
appended to the conversation, responses.create is called on the whole conversation, and
on success the assistant reply is appended. A raise ends the process, leaving the
conversation as it was at that point. Returns the loop outcome, the calls made, and
the final conversation. -/
def interactiveLoop (svc : Service) (conv : List Msg) :
    List String → PyResult Unit × List CallEvent × List Msg
  | [] => (.ok (), [], conv)
  | i :: rest =>
    let u := pystrip i
    if u = "" then interactiveLoop svc conv rest
    else if pylower u = "exit" || pylower u = "quit" then (.ok (), [], conv)
    else
      let conv1 := conv ++ [⟨"user", u⟩]
      match svc.respondConv conv1 with
      | .exc k m => (.exc k m, [.respond], conv1)
      | .ok t =>
        let r := interactiveLoop svc (conv1 ++ [⟨"assistant", t⟩]) rest
        (r.1, .respond :: r.2.1, r.2.2)

/-- interactive_mode of scripts/call_agent.py: agents.get for the resolved agent name,
then the conversation loop starting from the empty history. -/
def interactive_mode (svc : Service) (name : String) (inputs : List String) :
    PyResult Unit × List CallEvent × List Msg :=
  match svc.getAgent name with
  | .exc k m => (.exc k m, [.getAgent], [])
  | .ok _ =>
    let r := interactiveLoop svc [] inputs
    (r.1, .getAgent :: r.2.1, r.2.2)

/-- Parsed command-line flags of scripts/call_agent.py. -/
structure Flags where
  message : List String
  agent : Option String
  stream : Bool
  interactive : Bool
  list : Bool
  quiet : Bool

/-- The try body of main: list mode checked first, then interactive mode, then the
missing-message check on the positional words, then the streaming or single-shot call
on the words joined by single spaces. Returns the body outcome (the return code, or a
raised exception), the agent-service calls attempted, and whether the missing-message
error was printed. -/
def mainBody (w : World) (args : Flags) (inputs : List String) :
    PyResult Int × List CallEvent × Bool :=
  let dfltAgent := (envGet w.env "AGENT_NAME").getD "ratemytask"
  if args.list then
    match list_agents w.svc with
    | (.ok _, evs) => (.ok 0, evs, false)
    | (.exc k m, evs) => (.exc k m, evs, false)
  else if args.interactive then
    match interactive_mode w.svc (resolveAgent args.agent dfltAgent) inputs with
    | (.ok _, evs, _) => (.ok 0, evs, false)
    | (.exc k m, evs, _) => (.exc k m, evs, false)
  else if args.message = [] then
    (.ok 1, [], true)
  else
    let message := String.intercalate " " args.message
    let name := resolveAgent args.agent dfltAgent
    if args.stream then
      match call_agent_streaming w.svc message name with
      | (.ok _, evs) => (.ok 0, evs, false)
      | (.exc k m, evs) => (.exc k m, evs, false)
    else
      match call_agent w.svc message name with
      | (.ok _, evs) => (.ok 0, evs, false)
      | (.exc k m, evs) => (.exc k m, evs, false)

/-- Observable outcome of one run of main: the returned exit code, the remote-service
calls attempted in order, the ERROR kind and message printed by the top-level except
handler when it fired, and whether the missing-message error was printed. -/
structure MainResult where
  exitCode : Int
  calls : List CallEvent
  topError : Option (String × String)
  missingMsgError : Bool
deriving DecidableEq

/-- main of scripts/call_agent.py: check_environment first, returning 1 when the
endpoint is missing, before any remote call; then the authentication gate, returning 1
on failure before any agent call; then the try body, whose exceptions the top-level
handler converts to the printed ERROR kind and message with exit code 1. -/
def mainFn (w : World) (args : Flags) (inputs : List String) : MainResult :=
  if !endpointOk w.env then
    { exitCode := 1, calls := [], topError := none, missingMsgError := false }
  else
    let gateCalls := authTrace w args.quiet
    if !authGate w args.quiet then
      { exitCode := 1, calls := gateCalls, topError := none, missingMsgError := false }
    else
      match mainBody w args inputs with
      | (.ok code, evs, mm) =>
        { exitCode := code, calls := gateCalls ++ evs, topError := none, missingMsgError := mm }
      | (.exc k m, evs, mm) =>
        { exitCode := 1, calls := gateCalls ++ evs, topError := some (k, m), missingMsgError := mm }

/-- The whole-process view relevant to exception propagation: the module-level
load_env_file call at import time runs before main and outside any try, so an
exception raised there escapes; otherwise main runs on the loaded environment. -/
def program (cands : List Candidate) (w : World) (args : Flags) (inputs : List String) :
    PyResult MainResult :=
  match loadEnvFile cands w.env with
  | .exc k m => .exc k m
  | .ok (env1, _) => .ok (mainFn { w with env := env1 } args inputs)

/-- check_azure_cli_logged_in of scripts/check_auth.py, with the subprocess outcome and
the json decoding supplied as data. The parse argument models json.loads followed by
account.get of user then of name: none models a json.JSONDecodeError, some u the
extracted user name (with the "unknown" default already applied). Because the
statement import json sits inside the try body, the name json is local to the
function; when subprocess.run raises FileNotFoundError or TimeoutExpired that import
has not run yet, so evaluating the except clause expression json.JSONDecodeError
raises UnboundLocalError, which propagates out of the function. When the subprocess
completed with return code 0 the import has run before json.loads, so a decode error
is caught and (False, None) is returned. -/
inductive AzRunOutcome where
  | exeMissing
  | timedOut
  | completed (returncode : Int) (stdout : String)
deriving DecidableEq

/-- See AzRunOutcome for the modelling notes on check_azure_cli_logged_in. -/
def check_azure_cli_logged_in (o : AzRunOutcome) (parse : String → Option String) :
    PyResult (Bool × Option String) :=
  match o with
  | .exeMissing => .exc "UnboundLocalError" "cannot access local variable json"
  | .timedOut => .exc "UnboundLocalError" "cannot access local variable json"
  | .completed rc out =>
    if rc = 0 then
      match parse out with
      | none => .ok (false, none)
      | some u => .ok (true, some u)
    else .ok (false, none)

/-- Holds when a list of remote calls contains no agent call. -/
def noAgentCalls (l : List CallEvent) : Bool := l.all fun e => !isAgentCall e

/-- Concatenation of text fragments in arrival order. -/
def concatAll (l : List String) : String := l.foldr (fun a b => a ++ b) ""

/-- A service behaviour on which every remote operation succeeds, used to instantiate
the theorems at concrete inputs. -/
def svcOk : Service where
  getAgent := fun _ => .ok ()
  agentsList := .ok ["ratemytask"]
  respond := fun m => .ok ("echo " ++ m)
  respondConv := fun _ => .ok "reply"
  streamEvents := fun _ => .ok [some "echo", none, some "", some " hi"]

/-- The service behaviour svcOk, except that agents.get raises. -/
def svcBoom : Service := { svcOk with getAgent := fun _ => .exc "RuntimeError" "boom" }

/-- A process environment with the required endpoint set. -/
def envEndpoint : List (String × String) := [("PROJECT_ENDPOINT", "https://contoso")]

/-- A world where configuration, authentication, and the service all work. -/
def wOk : World :=
  { env := envEndpoint, cliInstalled := true, azureImportOk := true, tokenOk := true, svc := svcOk }

/-- The world wOk with the endpoint variable missing. -/
def wNoEndpoint : World := { wOk with env := [] }

/-- The world wOk with the credential unable to obtain a token. -/
def wNoToken : World := { wOk with tokenOk := false }

/-- The world wOk with the raising service svcBoom. -/
def wBoom : World := { wOk with svc := svcBoom }

/-- Flags of a plain single-shot invocation with one message word. -/
def argsMsg : Flags :=
  { message := ["hi"], agent := none, stream := false, interactive := false, list := false,
    quiet := false }

/-- Flags of a list-mode invocation with no message words. -/
def argsList : Flags := { argsMsg with message := [], list := true }

/-- Flags of an interactive-mode invocation with no message words. -/
def argsInter : Flags := { argsMsg with message := [], interactive := true }

/-- Flags of an invocation with no mode flag and no message words. -/
def argsNone : Flags := { argsMsg with message := [] }

/-- Candidates whose path does not exist are skipped without any effect. -/
lemma loadEnvFile_skip_absent (pre rest : List Candidate) (env : List (String × String))
    (h : ∀ x ∈ pre, x.state = .absent) :
    loadEnvFile (pre ++ rest) env = loadEnvFile rest env := by
  induction pre with
  | nil => rfl
  | cons x xs ih =>
    have hx : x.state = .absent := h x (by simp)
    have hxs : ∀ y ∈ xs, y.state = .absent := fun y hy => h y (by simp [hy])
    rw [List.cons_append]
    show loadEnvFile (x :: (xs ++ rest)) env = loadEnvFile rest env
    rw [loadEnvFile, hx]
    exact ih hxs

/-- Claim C1: load_env_file loads key-value pairs from exactly the first candidate whose
path exists (provided that file is readable), processes no later candidate, and returns
that candidate's path; when no candidate exists it loads nothing and returns None. -/
theorem loadEnvFile_first_existing :
    (∀ (pre : List Candidate) (c : Candidate) (post : List Candidate)
       (env : List (String × String)) (lines : List String),
       (∀ x ∈ pre, x.state = .absent) → c.state = .readable lines →
       loadEnvFile (pre ++ c :: post) env = .ok (processLines env lines, some c.path))
    ∧ (∀ (cands : List Candidate) (env : List (String × String)),
       (∀ x ∈ cands, x.state = .absent) → loadEnvFile cands env = .ok (env, none)) := by
  constructor
  · intro pre c post env lines hpre hc
    rw [loadEnvFile_skip_absent pre (c :: post) env hpre, loadEnvFile, hc]
  · intro cands env h
    have := loadEnvFile_skip_absent cands [] env h
    simpa using this

/-- Witness for C1 at a concrete candidate list. -/
theorem loadEnvFile_first_existing_witness :
    loadEnvFile
        [⟨"root/.env", .absent⟩, ⟨"skill/.env", .readable ["K=1"]⟩,
         ⟨"cwd/.env", .readable ["K=2"]⟩] [] =
      .ok ([("K", "1")], some "skill/.env")
    ∧ loadEnvFile [⟨"root/.env", .absent⟩] [] = .ok ([], none) := by
  constructor
  · have h := loadEnvFile_first_existing.1 [⟨"root/.env", .absent⟩]
      ⟨"skill/.env", .readable ["K=1"]⟩ [⟨"cwd/.env", .readable ["K=2"]⟩] [] ["K=1"]
      (by simp) rfl
    exact h.trans (by decide)
  · exact loadEnvFile_first_existing.2 [⟨"root/.env", .absent⟩] [] (by simp)

/-- Claim C2 counterexample: with an unreadable second candidate and a readable third,
load_env_file raises the open error instead of skipping to the third candidate, so an
unreadable candidate is not skipped silently and loading can be fatal. -/
theorem loadEnvFile_unreadable_raises_cex :
    loadEnvFile
        [⟨"root/.env", .absent⟩, ⟨"skill/.env", .errFile "PermissionError" "denied"⟩,
         ⟨"cwd/.env", .readable ["K=1"]⟩] [] =
      .exc "PermissionError" "denied" := by decide

/-- Claim C2 amended: when the first candidate whose path exists cannot be opened or
decoded, load_env_file propagates that exception instead of trying later candidates;
only candidates whose paths do not exist are skipped. -/
theorem loadEnvFile_unreadable_propagates (pre : List Candidate) (c : Candidate)
    (post : List Candidate) (env : List (String × String)) (k m : String)
    (hpre : ∀ x ∈ pre, x.state = .absent) (hc : c.state = .errFile k m) :
    loadEnvFile (pre ++ c :: post) env = .exc k m := by
  rw [loadEnvFile_skip_absent pre (c :: post) env hpre, loadEnvFile, hc]

/-- Witness for the amended C2 at a concrete candidate list. -/
theorem loadEnvFile_unreadable_propagates_witness :
    loadEnvFile
        [⟨"root/.env", .absent⟩, ⟨"skill/.env", .errFile "UnicodeDecodeError" "bad byte"⟩,
         ⟨"cwd/.env", .readable ["K=1"]⟩] [] =
      .exc "UnicodeDecodeError" "bad byte" :=
  loadEnvFile_unreadable_propagates [⟨"root/.env", .absent⟩]
    ⟨"skill/.env", .errFile "UnicodeDecodeError" "bad byte"⟩
    [⟨"cwd/.env", .readable ["K=1"]⟩] [] "UnicodeDecodeError" "bad byte" (by simp) rfl

/-- A binding present in the environment survives appending entries at the end. -/
lemma envGet_append (env l : List (String × String)) (k v : String)
    (h : envGet env k = some v) : envGet (env ++ l) k = some v := by
  induction env with
  | nil => simp [envGet] at h
  | cons p t ih =>
    obtain ⟨k0, v0⟩ := p
    rw [envGet] at h
    rw [List.cons_append, envGet]
    by_cases hk : k0 = k
    · rwa [if_pos hk] at h ⊢
    · rw [if_neg hk] at h ⊢
      exact ih h

/-- One line of load_env_file never changes a key that is already set. -/
lemma processLine_preserve (env : List (String × String)) (line k v : String)
    (h : envGet env k = some v) : envGet (processLine env line) k = some v := by
  unfold processLine
  cases hp : parseKV (pystrip line) with
  | none => exact h
  | some kv =>
    by_cases he : envGet env kv.1 = none
    · simp only [he, if_pos rfl]
      exact envGet_append env [kv] k v h
    · simp only [if_neg he]
      exact h

/-- A whole file of load_env_file never changes a key that is already set. -/
lemma processLines_preserve (lines : List String) :
    ∀ (env : List (String × String)) (k v : String), envGet env k = some v →
      envGet (processLines env lines) k = some v := by
  induction lines with
  | nil => intro env k v h; exact h
  | cons l ls ih =>
    intro env k v h
    exact ih (processLine env l) k v (processLine_preserve env l k v h)

/-- One line of the call_agent_simple env block never changes a key that is already set. -/
lemma simpleProcessLine_preserve (env : List (String × String)) (line k v : String)
    (h : envGet env k = some v) : envGet (simpleProcessLine env line) k = some v := by
  unfold simpleProcessLine
  cases hp : simpleParseKV line with
  | none => exact h
  | some kv =>
    by_cases he : envGet env kv.1 = none
    · simp only [he, if_pos rfl]
      exact envGet_append env [kv] k v h
    · simp only [if_neg he]
      exact h

/-- The whole call_agent_simple env block never changes a key that is already set. -/
lemma simpleProcessLines_preserve (lines : List String) :
    ∀ (env : List (String × String)) (k v : String), envGet env k = some v →
      envGet (simpleProcessLines env lines) k = some v := by
  induction lines with
  | nil => intro env k v h; exact h
  | cons l ls ih =>
    intro env k v h
    exact ih (simpleProcessLine env l) k v (simpleProcessLine_preserve env l k v h)

/-- Claim C3: in both implementations, loading a configuration file never changes the
value of a key already present in the process environment before the load, and once a
line of the file has defined a key, later lines of the same file cannot change it, so
the first definition inside a file wins. -/
theorem env_load_precedence :
    (∀ (lines : List String) (env : List (String × String)) (k v : String),
       envGet env k = some v → envGet (processLines env lines) k = some v)
    ∧ (∀ (line : String) (rest : List String) (env : List (String × String)) (k v : String),
       envGet (processLine env line) k = some v →
       envGet (processLines env (line :: rest)) k = some v)
    ∧ (∀ (lines : List String) (env : List (String × String)) (k v : String),
       envGet env k = some v → envGet (simpleProcessLines env lines) k = some v)
    ∧ (∀ (line : String) (rest : List String) (env : List (String × String)) (k v : String),
       envGet (simpleProcessLine env line) k = some v →
       envGet (simpleProcessLines env (line :: rest)) k = some v) := by
  refine ⟨fun lines => processLines_preserve lines, ?_, fun lines => simpleProcessLines_preserve lines, ?_⟩
  · intro line rest env k v h
    exact processLines_preserve rest (processLine env line) k v h
  · intro line rest env k v h
    exact simpleProcessLines_preserve rest (simpleProcessLine env line) k v h

/-- Witness for C3 at concrete environments and files. -/
theorem env_load_precedence_witness :
    envGet (processLines [("K", "0")] ["K=1"]) "K" = some "0"
    ∧ envGet (processLines [] ["K=a", "K=b"]) "K" = some "a"
    ∧ envGet (simpleProcessLines [("K", "0")] ["K=1"]) "K" = some "0"
    ∧ envGet (simpleProcessLines [] ["K=a", "K=b"]) "K" = some "a" := by
  refine ⟨?_, ?_, ?_, ?_⟩
  · exact env_load_precedence.1 ["K=1"] [("K", "0")] "K" "0" (by decide)
  · exact env_load_precedence.2.1 "K=a" ["K=b"] [] "K" "a" (by decide)
  · exact env_load_precedence.2.2.1 ["K=1"] [("K", "0")] "K" "0" (by decide)
  · exact env_load_precedence.2.2.2 "K=a" ["K=b"] [] "K" "a" (by decide)

/-- A character list whose two-sided strip is empty consists only of stripped characters. -/
lemma stripEnds_eq_nil (p : Char → Bool) (s : List Char) (h : stripEnds p s = []) :
    ∀ c ∈ s, p c = true := by
  have h1 : (s.dropWhile p).reverse.dropWhile p = [] := by
    have := congrArg List.reverse h
    simpa [stripEnds] using this
  have h2 : ∀ c ∈ (s.dropWhile p).reverse, p c = true := List.dropWhile_eq_nil_iff.mp h1
  have h3 : ∀ c ∈ s.dropWhile p, p c = true := fun c hc => h2 c (List.mem_reverse.mpr hc)
  intro c hc
  rw [← List.takeWhile_append_dropWhile p s] at hc
  rcases List.mem_append.mp hc with hc1 | hc2
  · exact List.mem_takeWhile_imp hc1
  · exact h3 c hc2

/-- A list of whitespace characters contains no equals sign. -/
lemma contains_eq_false_of_all_space (l : List Char) (h : ∀ c ∈ l, isPySpace c = true) :
    l.contains '=' = false := by
  induction l with
  | nil => rfl
  | cons c t ih =>
    have hc := h c (by simp)
    have ht := ih fun x hx => h x (by simp [hx])
    rw [List.contains_cons, ht, Bool.or_false]
    by_cases he : c = '='
    · rw [he] at hc; exact absurd hc (by decide)
    · exact beq_false_of_ne fun hx => he hx.symm

/-- A whitespace-only line contains no equals sign. -/
lemma pystrip_empty_no_eq (line : String) (h : pystrip line = "") :
    line.data.contains '=' = false := by
  have hall : ∀ c ∈ line.data, isPySpace c = true :=
    stripEnds_eq_nil isPySpace line.data (congrArg String.data h)
  exact contains_eq_false_of_all_space line.data hall

/-- Dropping a whitespace prefix from a list ending in a non-whitespace character keeps
that character last. -/
lemma dropWhile_concat_getLast (p : Char → Bool) (c : Char) (hc : p c = false)
    (l : List Char) : ((l ++ [c]).dropWhile p).getLast? = some c := by
  induction l with
  | nil => simp [List.dropWhile_cons, hc]
  | cons a t ih =>
    rw [List.cons_append, List.dropWhile_cons]
    by_cases ha : p a = true
    · rw [if_pos ha]; exact ih
    · rw [if_neg ha]
      exact List.getLast?_concat (a :: t)

/-- Stripping whitespace from a line that starts with a hash keeps the hash first. -/
lemma stripEnds_head_hash (t : List Char) :
    (stripEnds isPySpace ('#' :: t)).head? = some '#' := by
  unfold stripEnds
  rw [List.dropWhile_cons]
  have hh : isPySpace '#' = false := by decide
  rw [hh]
  simp only [Bool.false_eq_true, if_false]
  rw [List.head?_reverse, List.reverse_cons]
  exact dropWhile_concat_getLast isPySpace '#' hh t.reverse

/-- Python strip of a line that starts with a hash still starts with a hash. -/
lemma pystrip_hash (line : String) (h : startsWithHash line = true) :
    startsWithHash (pystrip line) = true := by
  unfold startsWithHash at h ⊢
  have h2 : line.data.head? = some '#' := of_decide_eq_true h
  obtain ⟨t, ht⟩ : ∃ t, line.data = '#' :: t := by
    cases hd : line.data with
    | nil => rw [hd] at h2; simp at h2
    | cons a t =>
      rw [hd] at h2
      simp only [List.head?_cons, Option.some.injEq] at h2
      exact ⟨t, by simp [hd, h2]⟩
  apply decide_eq_true
  show (stripEnds isPySpace line.data).head? = some '#'
  rw [ht]
  exact stripEnds_head_hash t

/-- A line that starts with a hash parses to nothing in load_env_file. -/
lemma parseKV_hash (s : String) (h : startsWithHash s = true) : parseKV s = none := by
  unfold parseKV
  rw [h]
  simp

/-- A line that starts with a hash parses to nothing in call_agent_simple. -/
lemma simpleParseKV_hash (s : String) (h : startsWithHash s = true) :
    simpleParseKV s = none := by
  unfold simpleParseKV
  rw [h]
  simp

/-- A whitespace-only line parses to nothing in call_agent_simple. -/
lemma simpleParseKV_blank (line : String) (h : pystrip line = "") :
    simpleParseKV line = none := by
  unfold simpleParseKV
  rw [pystrip_empty_no_eq line h]
  simp

/-- Claim C5: in both implementations, a blank (whitespace-only) line or a line
beginning with a hash sets no key; for a key not already in the environment, a line
with a double-quoted or single-quoted value sets the key to the value with the quotes
stripped, and a line with an unquoted value sets the key to the value verbatim. -/
theorem line_parsing_shapes :
    (∀ (env : List (String × String)) (line : String),
       pystrip line = "" → processLine env line = env)
    ∧ (∀ (env : List (String × String)) (line : String),
       startsWithHash line = true → processLine env line = env)
    ∧ (∀ (env : List (String × String)) (line : String),
       pystrip line = "" → simpleProcessLine env line = env)
    ∧ (∀ (env : List (String × String)) (line : String),
       startsWithHash line = true → simpleProcessLine env line = env)
    ∧ (∀ env : List (String × String), envGet env "KEY" = none →
       processLine env "KEY=\x22value\x22" = env ++ [("KEY", "value")]
       ∧ processLine env "KEY=\x27value\x27" = env ++ [("KEY", "value")])
    ∧ (∀ env : List (String × String), envGet env "OTHER" = none →
       processLine env "OTHER=value2" = env ++ [("OTHER", "value2")])
    ∧ (∀ env : List (String × String), envGet env "KEY" = none →
       simpleProcessLine env "KEY=\x22value\x22" = env ++ [("KEY", "value")]
       ∧ simpleProcessLine env "KEY=\x27value\x27" = env ++ [("KEY", "value")])
    ∧ (∀ env : List (String × String), envGet env "OTHER" = none →
       simpleProcessLine env "OTHER=value2" = env ++ [("OTHER", "value2")]) := by
  refine ⟨?_, ?_, ?_, ?_, ?_, ?_, ?_, ?_⟩
  · intro env line h
    unfold processLine
    rw [h, (by decide : parseKV "" = none)]
  · intro env line h
    unfold processLine
    rw [parseKV_hash (pystrip line) (pystrip_hash line h)]
  · intro env line h
    unfold simpleProcessLine
    rw [simpleParseKV_blank line h]
  · intro env line h
    unfold simpleProcessLine
    rw [simpleParseKV_hash line h]
  · intro env h
    constructor
    · unfold processLine
      rw [(by decide : parseKV (pystrip "KEY=\x22value\x22") = some ("KEY", "value"))]
      simp [h]
    · unfold processLine
      rw [(by decide : parseKV (pystrip "KEY=\x27value\x27") = some ("KEY", "value"))]
      simp [h]
  · intro env h
    unfold processLine
    rw [(by decide : parseKV (pystrip "OTHER=value2") = some ("OTHER", "value2"))]
    simp [h]
  · intro env h
    constructor
    · unfold simpleProcessLine
      rw [(by decide : simpleParseKV "KEY=\x22value\x22" = some ("KEY", "value"))]
      simp [h]
    · unfold simpleProcessLine
      rw [(by decide : simpleParseKV "KEY=\x27value\x27" = some ("KEY", "value"))]
      simp [h]
  · intro env h
    unfold simpleProcessLine
    rw [(by decide : simpleParseKV "OTHER=value2" = some ("OTHER", "value2"))]
    simp [h]

/-- Witness for C5 at concrete lines and the empty environment. -/
theorem line_parsing_shapes_witness :
    processLine [] "   " = []
    ∧ processLine [] "# note" = []
    ∧ simpleProcessLine [] "" = []
    ∧ simpleProcessLine [] "# note" = []
    ∧ processLine [] "KEY=\x22value\x22" = [("KEY", "value")]
    ∧ processLine [] "OTHER=value2" = [("OTHER", "value2")]
    ∧ simpleProcessLine [] "KEY=\x27value\x27" = [("KEY", "value")]
    ∧ simpleProcessLine [] "OTHER=value2" = [("OTHER", "value2")] := by
  refine ⟨?_, ?_, ?_, ?_, ?_, ?_, ?_, ?_⟩
  · exact line_parsing_shapes.1 [] "   " (by decide)
  · exact line_parsing_shapes.2.1 [] "# note" (by decide)
  · exact line_parsing_shapes.2.2.1 [] "" (by decide)
  · exact line_parsing_shapes.2.2.2.1 [] "# note" (by decide)
  · exact (line_parsing_shapes.2.2.2.2.1 [] (by decide)).1
  · exact line_parsing_shapes.2.2.2.2.2.1 [] (by decide)
  · exact (line_parsing_shapes.2.2.2.2.2.2.1 [] (by decide)).2
  · exact line_parsing_shapes.2.2.2.2.2.2.2 [] (by decide)

/-- The authentication gate attempts at most the token acquisition, never an agent call. -/
lemma authTrace_no_agent (w : World) (q : Bool) : noAgentCalls (authTrace w q) = true := by
  unfold authTrace noAgentCalls
  split_ifs <;> rfl

/-- A missing endpoint stops main before any remote call. -/
lemma mainFn_endpoint_missing (w : World) (args : Flags) (inputs : List String)
    (h : endpointOk w.env = false) :
    mainFn w args inputs =
      { exitCode := 1, calls := [], topError := none, missingMsgError := false } := by
  simp [mainFn, h]

/-- A failed authentication gate stops main with only the gate's own attempts made. -/
lemma mainFn_auth_failed (w : World) (args : Flags) (inputs : List String)
    (hend : endpointOk w.env = true) (h : authGate w args.quiet = false) :
    mainFn w args inputs =
      { exitCode := 1, calls := authTrace w args.quiet, topError := none,
        missingMsgError := false } := by
  simp [mainFn, hend, h]

/-- When the gates pass and the try body returns a code, main returns that code with no
top-level error. -/
lemma mainFn_body_ok (w : World) (args : Flags) (inputs : List String) (c : Int)
    (hend : endpointOk w.env = true) (hauth : authGate w args.quiet = true)
    (hb : (mainBody w args inputs).1 = .ok c) :
    mainFn w args inputs =
      { exitCode := c, calls := authTrace w args.quiet ++ (mainBody w args inputs).2.1,
        topError := none, missingMsgError := (mainBody w args inputs).2.2 } := by
  rcases hm : mainBody w args inputs with ⟨r, evs, mm⟩
  rw [hm] at hb
  simp only at hb
  subst hb
  unfold mainFn
  rw [hm]
  simp [hend, hauth]

/-- When the gates pass and the try body raises, the top-level handler converts the
exception to exit code 1 with its kind and message recorded. -/
lemma mainFn_body_exc (w : World) (args : Flags) (inputs : List String) (k m : String)
    (hend : endpointOk w.env = true) (hauth : authGate w args.quiet = true)
    (hb : (mainBody w args inputs).1 = .exc k m) :
    mainFn w args inputs =
      { exitCode := 1, calls := authTrace w args.quiet ++ (mainBody w args inputs).2.1,
        topError := some (k, m), missingMsgError := (mainBody w args inputs).2.2 } := by
  rcases hm : mainBody w args inputs with ⟨r, evs, mm⟩
  rw [hm] at hb
  simp only at hb
  subst hb
  unfold mainFn
  rw [hm]
  simp [hend, hauth]

/-- Claim C4: if the required endpoint setting is absent after loading, main returns
exit code 1 without attempting any remote call at all; if the authentication gate
reports failure, main returns exit code 1 without attempting any agent call. -/
theorem mainFn_gates (w : World) (args : Flags) (inputs : List String) :
    (endpointOk w.env = false →
      mainFn w args inputs =
        { exitCode := 1, calls := [], topError := none, missingMsgError := false })
    ∧ (authGate w args.quiet = false →
      (mainFn w args inputs).exitCode = 1
      ∧ noAgentCalls (mainFn w args inputs).calls = true) := by
  constructor
  · intro h
    exact mainFn_endpoint_missing w args inputs h
  · intro h
    by_cases hend : endpointOk w.env = true
    · rw [mainFn_auth_failed w args inputs hend h]
      exact ⟨rfl, authTrace_no_agent w args.quiet⟩
    · have hf : endpointOk w.env = false := by simpa using hend
      rw [mainFn_endpoint_missing w args inputs hf]
      exact ⟨rfl, rfl⟩

/-- Witness for C4 at concrete worlds: one missing the endpoint, one failing the token. -/
theorem mainFn_gates_witness :
    mainFn wNoEndpoint argsMsg [] =
      { exitCode := 1, calls := [], topError := none, missingMsgError := false }
    ∧ ((mainFn wNoToken argsMsg []).exitCode = 1
       ∧ noAgentCalls (mainFn wNoToken argsMsg []).calls = true) :=
  ⟨(mainFn_gates wNoEndpoint argsMsg []).1 (by decide),
   (mainFn_gates wNoToken argsMsg []).2 (by decide)⟩

/-- List mode with a working service: one agents.list call, code 0, no message needed. -/
lemma mainBody_list (w : World) (args : Flags) (inputs : List String) (ns : List String)
    (hl : args.list = true) (hns : w.svc.agentsList = .ok ns) :
    mainBody w args inputs = (.ok 0, [.listAgents], false) := by
  simp [mainBody, hl, list_agents, hns]

/-- Interactive mode that completes: code 0, no missing-message error. -/
lemma mainBody_interactive_ok (w : World) (args : Flags) (inputs : List String)
    (hl : args.list = false) (hi : args.interactive = true)
    (hok : (interactive_mode w.svc
        (resolveAgent args.agent ((envGet w.env "AGENT_NAME").getD "ratemytask")) inputs).1 =
      .ok ()) :
    (mainBody w args inputs).1 = .ok 0 ∧ (mainBody w args inputs).2.2 = false := by
  unfold mainBody
  rcases hm : interactive_mode w.svc
      (resolveAgent args.agent ((envGet w.env "AGENT_NAME").getD "ratemytask")) inputs with
    ⟨r, evs, conv⟩
  rw [hm] at hok
  simp only at hok
  subst hok
  simp [hl, hi, hm]

/-- No mode flag and no message words: the missing-message error, code 1, no calls. -/
lemma mainBody_missing (w : World) (args : Flags) (inputs : List String)
    (hl : args.list = false) (hi : args.interactive = false) (hm : args.message = []) :
    mainBody w args inputs = (.ok 1, [], true) := by
  simp [mainBody, hl, hi, hm]

/-- The missing-message error fires exactly when no mode flag is set and the message is
empty, whatever the service does. -/
lemma mainBody_mm_iff (w : World) (args : Flags) (inputs : List String) :
    (mainBody w args inputs).2.2 = true ↔
      args.list = false ∧ args.interactive = false ∧ args.message = [] := by
  unfold mainBody
  by_cases hl : args.list = true
  · rcases hla : list_agents w.svc with ⟨r, evs⟩
    cases r <;> simp [hl, hla]
  · have hl2 : args.list = false := by simpa using hl
    by_cases hi : args.interactive = true
    · rcases him : interactive_mode w.svc
          (resolveAgent args.agent ((envGet w.env "AGENT_NAME").getD "ratemytask")) inputs with
        ⟨r, evs, conv⟩
      cases r <;> simp [hl2, hi, him]
    · have hi2 : args.interactive = false := by simpa using hi
      by_cases hm : args.message = []
      · simp [hl2, hi2, hm]
      · by_cases hs : args.stream = true
        · rcases hcs : call_agent_streaming w.svc (String.intercalate " " args.message)
              (resolveAgent args.agent ((envGet w.env "AGENT_NAME").getD "ratemytask")) with
            ⟨r, evs⟩
          cases r <;> simp [hl2, hi2, hm, hs, hcs]
        · have hs2 : args.stream = false := by simpa using hs
          rcases hca : call_agent w.svc (String.intercalate " " args.message)
              (resolveAgent args.agent ((envGet w.env "AGENT_NAME").getD "ratemytask")) with
            ⟨r, evs⟩
          cases r <;> simp [hl2, hi2, hm, hs2, hca]

/-- Under passing gates, the missing-message flag of main is that of its try body. -/
lemma mainFn_mm (w : World) (args : Flags) (inputs : List String)
    (hend : endpointOk w.env = true) (hauth : authGate w args.quiet = true) :
    (mainFn w args inputs).missingMsgError = (mainBody w args inputs).2.2 := by
  unfold mainFn
  rcases hm : mainBody w args inputs with ⟨r, evs, mm⟩
  cases r <;> simp [hend, hauth]

/-- Claim C6: modes are selected in the fixed order list, then interactive, then the
single-shot or streaming call; list mode and interactive mode return 0 without any
message words; the missing-message error, with exit code 1 and no agent call, occurs
exactly when neither list nor interactive is selected and no message words were given. -/
theorem mainFn_mode_precedence (w : World) (args : Flags) (inputs : List String)
    (ns : List String) (hend : endpointOk w.env = true)
    (hauth : authGate w args.quiet = true) :
    (args.list = true → w.svc.agentsList = .ok ns →
      (mainFn w args inputs).exitCode = 0 ∧ (mainFn w args inputs).missingMsgError = false)
    ∧ (args.list = false → args.interactive = true →
      (interactive_mode w.svc
          (resolveAgent args.agent ((envGet w.env "AGENT_NAME").getD "ratemytask")) inputs).1 =
        .ok () →
      (mainFn w args inputs).exitCode = 0 ∧ (mainFn w args inputs).missingMsgError = false)
    ∧ ((mainFn w args inputs).missingMsgError = true ↔
      args.list = false ∧ args.interactive = false ∧ args.message = [])
    ∧ (args.list = false → args.interactive = false → args.message = [] →
      (mainFn w args inputs).exitCode = 1
      ∧ noAgentCalls (mainFn w args inputs).calls = true) := by
  refine ⟨?_, ?_, ?_, ?_⟩
  · intro hl hns
    have hb := mainBody_list w args inputs ns hl hns
    rw [mainFn_body_ok w args inputs 0 hend hauth (by rw [hb])]
    simp [hb]
  · intro hl hi hok
    obtain ⟨h1, h2⟩ := mainBody_interactive_ok w args inputs hl hi hok
    rw [mainFn_body_ok w args inputs 0 hend hauth h1]
    simp [h2]
  · rw [mainFn_mm w args inputs hend hauth]
    exact mainBody_mm_iff w args inputs
  · intro hl hi hm
    have hb := mainBody_missing w args inputs hl hi hm
    rw [mainFn_body_ok w args inputs 1 hend hauth (by rw [hb])]
    constructor
    · rfl
    · show noAgentCalls (authTrace w args.quiet ++ (mainBody w args inputs).2.1) = true
      rw [hb]
      show noAgentCalls (authTrace w args.quiet ++ []) = true
      rw [List.append_nil]
      exact authTrace_no_agent w args.quiet

/-- Witness for C6 at concrete flag combinations in the working world. -/
theorem mainFn_mode_precedence_witness :
    ((mainFn wOk argsList []).exitCode = 0 ∧ (mainFn wOk argsList []).missingMsgError = false)
    ∧ ((mainFn wOk argsInter ["exit"]).exitCode = 0
       ∧ (mainFn wOk argsInter ["exit"]).missingMsgError = false)
    ∧ ((mainFn wOk argsNone []).missingMsgError = true ↔
       argsNone.list = false ∧ argsNone.interactive = false ∧ argsNone.message = [])
    ∧ ((mainFn wOk argsNone []).exitCode = 1
       ∧ noAgentCalls (mainFn wOk argsNone []).calls = true) := by
  refine ⟨?_, ?_, ?_, ?_⟩
  · exact (mainFn_mode_precedence wOk argsList [] ["ratemytask"] (by decide) (by decide)).1
      rfl rfl
  · exact (mainFn_mode_precedence wOk argsInter ["exit"] ["ratemytask"]
      (by decide) (by decide)).2.1 rfl rfl (by decide)
  · exact (mainFn_mode_precedence wOk argsNone [] ["ratemytask"] (by decide) (by decide)).2.2.1
  · exact (mainFn_mode_precedence wOk argsNone [] ["ratemytask"] (by decide) (by decide)).2.2.2
      rfl rfl rfl

/-- Claim C7 counterexample: an unreadable .env makes the module-level load_env_file
call raise at import time, before main and outside its try, so the exception escapes
uncaught instead of being printed as an ERROR line with exit code 1. -/
theorem program_uncaught_load_exception_cex :
    program [⟨"proj/.env", .errFile "PermissionError" "denied"⟩] wOk argsMsg [] =
      .exc "PermissionError" "denied" := by decide

/-- Claim C7 amended: exceptions raised inside the dispatcher's try body, after the
environment and authentication checks, are caught by the top-level handler and printed
as ERROR with the exception kind and message, returning exit code 1; but an exception
from the module-level configuration load happens before main and propagates uncaught. -/
theorem dispatcher_error_conversion (w : World) (args : Flags) (inputs : List String)
    (cands : List Candidate) (k m : String) :
    ((mainBody w args inputs).1 = .exc k m → endpointOk w.env = true →
      authGate w args.quiet = true →
      (mainFn w args inputs).exitCode = 1
      ∧ (mainFn w args inputs).topError = some (k, m))
    ∧ (loadEnvFile cands w.env = .exc k m → program cands w args inputs = .exc k m) := by
  constructor
  · intro hb hend hauth
    rw [mainFn_body_exc w args inputs k m hend hauth hb]
    exact ⟨rfl, rfl⟩
  · intro hl
    unfold program
    rw [hl]

/-- Witness for the amended C7: a raising agents.get converted by the handler, and a
raising module-level load escaping. -/
theorem dispatcher_error_conversion_witness :
    ((mainFn wBoom argsMsg []).exitCode = 1
     ∧ (mainFn wBoom argsMsg []).topError = some ("RuntimeError", "boom"))
    ∧ program [⟨"proj/.env", .errFile "OSError" "io"⟩] wOk argsMsg [] = .exc "OSError" "io" :=
  ⟨(dispatcher_error_conversion wBoom argsMsg [] [] "RuntimeError" "boom").1
      (by decide) (by decide) (by decide),
   (dispatcher_error_conversion wOk argsMsg [] [⟨"proj/.env", .errFile "OSError" "io"⟩]
      "OSError" "io").2 (by decide)⟩

/-- Claim C8: in an interactive session whose inputs are hello then exit, exactly one
user message and one assistant reply are appended to the conversation history before
the session ends normally; with exit as the only input the session ends normally with
the history still empty. -/
theorem interactive_history (svc : Service) (name t : String)
    (hagent : svc.getAgent name = .ok ())
    (hresp : svc.respondConv [⟨"user", "hello"⟩] = .ok t) :
    ((interactive_mode svc name ["hello", "exit"]).2.2 =
        [⟨"user", "hello"⟩, ⟨"assistant", t⟩]
      ∧ (interactive_mode svc name ["hello", "exit"]).1 = .ok ())
    ∧ ((interactive_mode svc name ["exit"]).2.2 = []
      ∧ (interactive_mode svc name ["exit"]).1 = .ok ()) := by
  have e1 : pystrip "hello" = "hello" := by decide
  have e2 : pylower "hello" = "hello" := by decide
  have e3 : pystrip "exit" = "exit" := by decide
  have e4 : pylower "exit" = "exit" := by decide
  refine ⟨⟨?_, ?_⟩, ?_, ?_⟩ <;>
    simp [interactive_mode, interactiveLoop, hagent, hresp, e1, e2, e3, e4]

/-- Witness for C8 with the concrete working service. -/
theorem interactive_history_witness :
    ((interactive_mode svcOk "ratemytask" ["hello", "exit"]).2.2 =
        [⟨"user", "hello"⟩, ⟨"assistant", "reply"⟩]
      ∧ (interactive_mode svcOk "ratemytask" ["hello", "exit"]).1 = .ok ())
    ∧ ((interactive_mode svcOk "ratemytask" ["exit"]).2.2 = []
      ∧ (interactive_mode svcOk "ratemytask" ["exit"]).1 = .ok ()) :=
  interactive_history svcOk "ratemytask" "reply" rfl rfl

/-- Dropping the empty fragments that the streaming loop filters out does not change
the concatenation of the fragments. -/
lemma concatAll_streamDeltas (evs : List (Option String)) :
    concatAll (streamDeltas evs) = concatAll (evs.filterMap id) := by
  induction evs with
  | nil => rfl
  | cons e t ih =>
    cases e with
    | none => simpa [streamDeltas] using ih
    | some s =>
      by_cases hs : s = ""
      · subst hs
        simpa [streamDeltas, concatAll] using ih
      · have ih2 := ih
        simp only [streamDeltas, concatAll] at ih2
        simp [streamDeltas, concatAll, hs, ih2]

/-- Claim C9: for one message and agent name and one external behaviour in which the
deltas of the stream concatenate to the single-shot response text, the fragments
yielded by the streaming call concatenate in arrival order to exactly the text that
the single-shot call returns. -/
theorem stream_matches_single (svc : Service) (message name t : String)
    (evs : List (Option String))
    (hg : svc.getAgent name = .ok ())
    (hr : svc.respond message = .ok t)
    (hs : svc.streamEvents message = .ok evs)
    (hc : concatAll (evs.filterMap id) = t) :
    (call_agent svc message name).1 = .ok t
    ∧ (call_agent_streaming svc message name).1 = .ok (streamDeltas evs)
    ∧ concatAll (streamDeltas evs) = t := by
  refine ⟨?_, ?_, ?_⟩
  · simp [call_agent, hg, hr]
  · simp [call_agent_streaming, hg, hs]
  · rw [concatAll_streamDeltas]
    exact hc

/-- Witness for C9 with the concrete working service on the message hi. -/
theorem stream_matches_single_witness :
    (call_agent svcOk "hi" "ratemytask").1 = .ok "echo hi"
    ∧ (call_agent_streaming svcOk "hi" "ratemytask").1 = .ok ["echo", " hi"]
    ∧ concatAll ["echo", " hi"] = "echo hi" := by
  have h := stream_matches_single svcOk "hi" "ratemytask" "echo hi"
    [some "echo", none, some "", some " hi"] rfl (by decide) rfl (by decide)
  exact ⟨h.1, h.2.1, h.2.2⟩

/-- Claim C10, recording the divergence: when the az executable is missing or the
subprocess times out, check_azure_cli_logged_in raises UnboundLocalError, because the
statement import json inside the try has not yet run when the except clause expression
json.JSONDecodeError is evaluated; only the invalid-JSON case, reached after the import
has run, is caught and returns (False, None), as does a nonzero return code. -/
theorem cli_login_check_outcomes :
    check_azure_cli_logged_in .exeMissing (fun _ => none) =
      .exc "UnboundLocalError" "cannot access local variable json"
    ∧ check_azure_cli_logged_in .timedOut (fun _ => none) =
      .exc "UnboundLocalError" "cannot access local variable json"
    ∧ check_azure_cli_logged_in (.completed 0 "not json") (fun _ => none) = .ok (false, none)
    ∧ check_azure_cli_logged_in (.completed 1 "") (fun _ => none) = .ok (false, none) := by
  refine ⟨rfl, rfl, by decide, by decide⟩
